import Mathlib

/-!
Verification of the LetsPack asset bundler (src/letsPack.js and its
revisions) against its natural-language specification, via a shallow
embedding of the orchestrator's methods.

External services (terser's minify, the postcss pipeline, md5-file, the
WHATWG URL parser, the network) are modelled as function parameters, per
the spec's treatment of them as opaque external collaborators with fixed
request/response contracts.  Node's filesystem is modelled as an
association list keyed by path; Node resolves relative paths against the
working directory, which the embedding makes explicit through
`pathResolve`.
-/

namespace LetsPack

/-- Model of `path.resolve(p)` from Node's path module (an external
library): a path starting with "/" is already absolute, otherwise it is
resolved against the current working directory. -/
def pathResolve (cwd p : String) : String :=
  if p.data.head? = some '/' then p else cwd ++ "/" ++ p

/-- Model of `path.join(d, f)` from Node's path module. -/
def pathJoin (d f : String) : String := d ++ "/" ++ f

/-- Embedding of the JS idiom `s.substring(s.lastIndexOf("/") + 1)` used
throughout letsPack.js: the suffix after the last forward slash, or the
whole string when no slash occurs. -/
def basenameAfterSlash (s : String) : String :=
  String.mk ((s.data.reverse.takeWhile (fun c => c ≠ '/')).reverse)

/-- Embedding of `filePath.replaceAll("\\", "/")` (single-character
pattern, so a character map). -/
def replaceBackslashes (s : String) : String :=
  String.mk (s.data.map (fun c => if c = '\\' then '/' else c))

/-- Embedding of the guarded normalization in `version`:
`if (filePath.includes("\\")) filePath = filePath.replaceAll("\\", "/")`. -/
def normalizeSeps (s : String) : String :=
  if s.data.contains '\\' then replaceBackslashes s else s

/-- Filesystem file table lookup (first binding wins, so a prepended
binding overwrites older ones). -/
def lookupFile : List (String × String) → String → Option String
  | [], _ => none
  | e :: rest, p => if e.fst = p then some e.snd else lookupFile rest p

/-- Directory table lookup. -/
def lookupDir : List (String × List String) → String → Option (List String)
  | [], _ => none
  | e :: rest, p => if e.fst = p then some e.snd else lookupDir rest p

/-- The filesystem the orchestrator runs against: full-content text files
keyed by absolute path, plus non-recursive directory listings (the two
fs capabilities the source uses besides stat). -/
structure FS where
  files : List (String × String)
  dirs : List (String × List String)

/-- Model of a full-content text read (`fs.readFile` / `fs.readFileSync`):
`none` models the ENOENT failure. -/
def FS.read (fs : FS) (p : String) : Option String := lookupFile fs.files p

/-- Model of `fs.readdirSync`: the immediate entries of a directory. -/
def FS.readdir (fs : FS) (p : String) : Option (List String) := lookupDir fs.dirs p

/-- Model of `fs.writeFile`: full-content overwrite of the file at `p`. -/
def FS.write (fs : FS) (p c : String) : FS := ⟨(p, c) :: fs.files, fs.dirs⟩

/-- The `outputFiles` instance field of the LetsPack class (the spec's
OutputRegistry): two optional path slots, set by `scripts` / `styles` and
read by `version`. -/
structure OutputRegistry where
  js : Option String
  css : Option String

/-- JS truthiness of a string-or-undefined value, as tested by
`result.js ? ... : ...` and `if (result.js)` in `version`: defined and
non-empty. -/
def jsTruthy (o : Option String) : Bool :=
  match o with
  | some s => if s = "" then false else true
  | none => false

/-- JS template interpolation of a string-or-undefined value
(an undefined value prints as "undefined"). -/
def jsTemplateStr (o : Option String) : String :=
  match o with
  | some s => s
  | none => "undefined"

/-- One element of the `results` array in `version`
(src/unnamed/part_001:556-585): `\x7bjs: hash\x7d` or `\x7bcss: hash\x7d`. -/
structure HashResult where
  js : Option String
  css : Option String

/-- Body of the `results.forEach` callback in `version`
(src/unnamed/part_001:563-576): choose the recorded output path by the
truthiness of `result.js`, normalize backslashes, take the basename, and
emit the manifest key/value pair. -/
def mixEntry (jsPath cssPath : String) (r : HashResult) : String × String :=
  let filePath := if jsTruthy r.js then jsPath else cssPath
  let filePath := normalizeSeps filePath
  let fileName := basenameAfterSlash filePath
  if jsTruthy r.js then
    ("/js/" ++ fileName, "/js/" ++ fileName ++ "?id=" ++ jsTemplateStr r.js)
  else
    ("/css/" ++ fileName, "/css/" ++ fileName ++ "?id=" ++ jsTemplateStr r.css)

/-- The `mix` object built by `version`: `Promise.all` delivers the two
hash results in order (js first, css second) and `forEach` inserts one
manifest entry per result. -/
def mixFromResults (jsPath cssPath hj hc : String) : List (String × String) :=
  [HashResult.mk (some hj) none, HashResult.mk none (some hc)].map (mixEntry jsPath cssPath)

/-- Model of the md5-file service applied to a registry slot, as `version`
does with `md5(this.outputFiles.js)`: a `null` slot makes the promise
reject with a TypeError (fs.createReadStream rejects a null path), a
missing file rejects with ENOENT, otherwise the digest of the file's
content is produced.  `hash` is the external digest function. -/
def md5FileSlot (hash : String → String) (cwd : String) (fs : FS) :
    Option String → Except String (String × String)
  | none => Except.error "TypeError: path must be a string or Buffer"
  | some p =>
    match fs.read (pathResolve cwd p) with
    | none => Except.error ("ENOENT: no such file or directory, open " ++ p)
    | some c => Except.ok (p, hash c)

/-- Outcome of the asynchronous pipeline started by `version`.  The
method's synchronous section only registers promise callbacks, so there is
no synchronous-throw constructor: every failure is a promise rejection,
delivered on the asynchronous error channel (`asyncError`). -/
inductive VersionOutcome where
  | wrote (fs2 : FS) (mix : List (String × String))
  | asyncError (msg : String)

/-- Embedding of `version` (src/unnamed/part_001:556-585; the hash/error
path is identical in the revisions at src/unnamed/part_001:307-337 and
src/src/letsPack.js:114-143): hash both recorded outputs, build the `mix`
object from the two results, serialize it and overwrite
public/mix-manifest.json.  A rejection of either md5 promise settles
`Promise.all` with that rejection. `serialize` models `JSON.stringify`
applied to the insertion-ordered key/value pairs. -/
def versionRun (hash : String → String) (serialize : List (String × String) → String)
    (cwd : String) (reg : OutputRegistry) (fs : FS) : VersionOutcome :=
  match md5FileSlot hash cwd fs reg.js with
  | Except.error e => VersionOutcome.asyncError e
  | Except.ok (jsPath, hj) =>
    match md5FileSlot hash cwd fs reg.css with
    | Except.error e => VersionOutcome.asyncError e
    | Except.ok (cssPath, hc) =>
      let mix := mixFromResults jsPath cssPath hj hc
      VersionOutcome.wrote
        (FS.write fs (pathResolve cwd "public/mix-manifest.json") (serialize mix)) mix

/-- The `version` method as a step on the orchestrator's state: the body
contains no assignment to `this.outputFiles`, so the registry component
passes through unchanged while the asynchronous pipeline runs. -/
def versionStep (hash : String → String) (serialize : List (String × String) → String)
    (cwd : String) (reg : OutputRegistry) (fs : FS) : OutputRegistry × VersionOutcome :=
  (reg, versionRun hash serialize cwd reg fs)

/-- A JavaScript value passed as the first argument of `scripts`, as far
as the method's `Array.isArray` / `typeof === "string"` dispatch can
distinguish it: an array of strings, a string, or anything else. -/
inductive JsArg where
  | arr (files : List String)
  | str (dir : String)
  | other

/-- An input/output action performed by the synchronous section of
`scripts`: a file read (`fs.readFileSync`) or a directory listing
(`fs.readdirSync`). -/
inductive IOEv where
  | fileRead (p : String)
  | dirList (p : String)
deriving DecidableEq

/-- How a `scripts` invocation leaves its caller: a synchronous exception
(`throw` / `readdirSync` / `readFileSync` failure propagating out of the
method), or the collected name-to-content map handed to the asynchronous
minify pipeline. -/
inductive ScriptsOutcome where
  | thrown (msg : String)
  | launched (codes : List (String × String))

/-- Embedding of `#readFiles` from src/src/letsPack.js:160-170: read each
path in order with `readFileSync`, feeding the callback that records
`codes[name] = content`; a missing file throws out of the loop.  Returns
the attempted reads alongside the collected entries. -/
def readFilesSrc (fs : FS) : List String → List String × Except String (List (String × String))
  | [] => ([], Except.ok [])
  | p :: rest =>
    match fs.read p with
    | none => ([p], Except.error ("ENOENT: no such file or directory, open " ++ p))
    | some c =>
      (p :: (readFilesSrc fs rest).fst,
       ((readFilesSrc fs rest).snd).map (fun cs => (p, c) :: cs))

/-- Embedding of the synchronous body of `scripts`
(src/src/letsPack.js:40-70): first record the output path in the
registry's js slot, then dispatch on the argument shape — an array is
resolved and read file by file, a string is treated as a directory to
enumerate, anything else throws the usage error before any I/O.  On
success the collected codes enter the asynchronous minify pipeline. -/
def scriptsStep (cwd : String) (reg : OutputRegistry) (fs : FS) (arg : JsArg)
    (output : String) : OutputRegistry × List IOEv × ScriptsOutcome :=
  let reg2 : OutputRegistry := { js := some output, css := reg.css }
  match arg with
  | JsArg.arr files =>
    let r := readFilesSrc fs (files.map (pathResolve cwd))
    (reg2, r.fst.map IOEv.fileRead,
      match r.snd with
      | Except.error e => ScriptsOutcome.thrown e
      | Except.ok codes => ScriptsOutcome.launched codes)
  | JsArg.str dir =>
    let d := pathResolve cwd dir
    match fs.readdir d with
    | none =>
      (reg2, [IOEv.dirList d],
        ScriptsOutcome.thrown ("ENOENT: no such file or directory, scandir " ++ d))
    | some entries =>
      let r := readFilesSrc fs (entries.map (fun f => pathJoin d f))
      (reg2, IOEv.dirList d :: r.fst.map IOEv.fileRead,
        match r.snd with
        | Except.error e => ScriptsOutcome.thrown e
        | Except.ok codes => ScriptsOutcome.launched codes)
  | JsArg.other => (reg2, [], ScriptsOutcome.thrown "Uknown type for 'scripts'!")

/-- The bundled content `scripts` writes to its destination for an
explicit source list (src/src/letsPack.js:50-66): the sources are
resolved, read into the codes map, and handed to the external minifier
`m` in one batch; the write then stores `m codes` verbatim. -/
def scriptsContent (m : List (String × String) → String) (cwd : String) (fs : FS)
    (files : List String) : Except String String :=
  ((readFilesSrc fs (files.map (pathResolve cwd))).snd).map m

/-- The transformed content `styles` writes to its destination
(src/src/letsPack.js:86-107): the entry stylesheet is read and handed to
the external postcss pipeline together with the resolved from/to paths;
the write stores the pipeline's css output verbatim. -/
def stylesContent (pipeline : String → String → String → String) (cwd : String)
    (fs : FS) (entry dest : String) : Except String String :=
  match fs.read (pathResolve cwd entry) with
  | none => Except.error ("ENOENT: no such file or directory, open " ++ entry)
  | some css => Except.ok (pipeline css (pathResolve cwd entry) (pathResolve cwd dest))

/-- The protocol component of a parsed WHATWG URL, the only part `#isURL`
inspects.  The parser itself (Node's `new URL`) is an external service:
it either yields the parsed parts or throws, which the embedding models
as `Except`. -/
structure URLParts where
  protocol : String

/-- JS truthiness of `url.protocol` in `!!url.protocol`. -/
def truthyStr (s : String) : Bool := if s = "" then false else true

/-- Embedding of `#isURL` (src/unnamed/part_001:370-377 and 617-624):
parse the candidate link inside try/catch — a parse failure is caught and
yields false — and otherwise accept exactly a truthy protocol equal to
"https:". -/
def isURL (parse : String → Except String URLParts) (link : String) : Bool :=
  match parse link with
  | Except.ok url => truthyStr url.protocol && decide ("https:" = url.protocol)
  | Except.error _ => false

/-- How one entry of the source list is obtained: fetched over the
network (`#download`), read from the local filesystem, or a failing local
read (readFileSync throwing ENOENT). -/
inductive EntryResult where
  | fetched (name : String) (content : String)
  | readLocal (path : String) (content : String)
  | readFailed (path : String)

/-- Embedding of the per-entry branch of the URL-aware `#readFiles`
(src/unnamed/part_001:357-364): an entry recognized by `#isURL` is
downloaded — `#download` names it by the substring after its last slash
and accumulates the GET response body, modelled by the external `net` —
while every other entry is resolved and read from disk. -/
def routeEntry (parse : String → Except String URLParts) (net : String → String)
    (cwd : String) (fs : FS) (file : String) : EntryResult :=
  if isURL parse file then
    EntryResult.fetched (basenameAfterSlash file) (net file)
  else
    match fs.read (pathResolve cwd file) with
    | some c => EntryResult.readLocal (pathResolve cwd file) c
    | none => EntryResult.readFailed file

/-- The URL-aware `#readFiles` over the whole source list: `forEach`
applies the routing branch to every entry. -/
def readFilesNet (parse : String → Except String URLParts) (net : String → String)
    (cwd : String) (fs : FS) (files : List String) : List EntryResult :=
  files.map (routeEntry parse net cwd fs)

/-- Embedding of the rounding helper in `#printSize`,
`+(Math.round(size + "e+2") + "e-2")`: shift the quotient `num / den` by
two decimal digits, round half up, i.e. `⌊100 num / den + 1/2⌋` (both
divisors in the source are powers of two, so the float arithmetic is
exact and agrees with this rational computation). -/
def roundHundredths (num den : Nat) : Nat := (200 * num + den) / (2 * den)

/-- A size report line: raw byte count, or kibibytes / mebibytes in
hundredths (two decimal places). -/
inductive SizeReport where
  | bytes (n : Nat)
  | kib (hundredths : Nat)
  | mib (hundredths : Nat)
deriving DecidableEq

/-- Embedding of the size classification in `#printSize`
(src/src/letsPack.js:184-194): below 1024 bytes report the byte count,
below 1048576 report kibibytes rounded to two decimals, otherwise
mebibytes rounded to two decimals. -/
def printSizeReport (size : Nat) : SizeReport :=
  if size < 1024 then SizeReport.bytes size
  else if size < 1048576 then SizeReport.kib (roundHundredths size 1024)
  else SizeReport.mib (roundHundredths size 1048576)

/-- Observable events of one `scripts` / `styles` run in the
promise-returning revision (src/unnamed/part_001:235-261): external
completions, write dispatch, and the resolution of the method's returned
promise. -/
inductive Ev where
  | minified
  | readDispatched
  | readCompleted
  | transformed
  | writeDispatched (path : String)
  | promiseResolved
  | writeCompleted (path : String)
deriving DecidableEq

/-- Node's event-loop ordering for the tail of a run: promise-resolution
microtasks drain before pending I/O completion callbacks, so everything
in `micro` is observed before everything in `callbacks`. -/
def scheduleEvents (micro callbacks : List Ev) : List Ev := micro ++ callbacks

/-- Event trace of a successful `async scripts` run
(src/unnamed/part_001:235-261): after `await minify(...)`, `#writeToFile`
(src/unnamed/part_001:429-434) dispatches `writeFile` without awaiting
its callback, and `return this` then resolves the method's promise in the
current microtask turn; the write-completion callback only runs on a
later event-loop iteration. -/
def scriptsRevBTrace (dest : String) : List Ev :=
  Ev.minified :: Ev.writeDispatched dest ::
    scheduleEvents [Ev.promiseResolved] [Ev.writeCompleted dest]

/-- Event trace of a successful `async styles` run
(src/unnamed/part_001:270-301): the body dispatches `readFile` with a
callback and immediately reaches `return this`, so the promise resolves
before the read, the postcss transform, and the write completion, all of
which happen in later I/O callbacks. -/
def stylesRevBTrace (dest : String) : List Ev :=
  Ev.readDispatched ::
    scheduleEvents [Ev.promiseResolved]
      [Ev.readCompleted, Ev.transformed, Ev.writeDispatched dest, Ev.writeCompleted dest]

/-- The ordering contract claimed of `scripts` / `styles`: the returned
promise resolves only after the destination write has completed, i.e.
every resolution event is preceded by the write-completion event. -/
def resolvesOnlyAfterWrite (dest : String) (t : List Ev) : Prop :=
  ∀ i, t.get? i = some Ev.promiseResolved →
    ∃ j, j < i ∧ t.get? j = some (Ev.writeCompleted dest)

/-- Concrete digest function for witnesses (stands in for md5). -/
def hashW (c : String) : String := "H" ++ c

/-- Concrete serializer for witnesses (stands in for JSON.stringify). -/
def serializeW (l : List (String × String)) : String :=
  String.intercalate "," (l.map (fun e => e.fst ++ " -> " ++ e.snd))

/-- Concrete registry for the manifest witness. -/
def regW : OutputRegistry := ⟨some "dist/app.min.js", some "assets\\app.min.css"⟩

/-- Concrete filesystem holding the two recorded outputs for the manifest
witness. -/
def fsW1 : FS :=
  ⟨[("/w/dist/app.min.js", "jsout"), ("/w/assets\\app.min.css", "cssout")], []⟩

/-- Concrete https URL for the routing witness. -/
def urlHttps : String := "https://cdn.example.com/lib/jquery.min.js"

/-- Concrete http URL for the routing witness. -/
def urlHttp : String := "http://cdn.example.com/a.js"

/-- Concrete URL parser for witnesses (stands in for Node's `new URL`):
parses the two CDN links of the witness and rejects everything else. -/
def parseW (link : String) : Except String URLParts :=
  if link = urlHttps then Except.ok ⟨"https:"⟩
  else if link = urlHttp then Except.ok ⟨"http:"⟩
  else Except.error "Invalid URL"

/-- Concrete network for witnesses: every GET yields the same body. -/
def netW (_ : String) : String := "fetched-body"

/-- Concrete filesystem for the routing witness: one local script. -/
def fsW2 : FS := ⟨[("/w/a.js", "console")], []⟩

/-- Concrete batch minifier for the idempotence witness. -/
def minifyW (codes : List (String × String)) : String :=
  String.intercalate ";" (codes.map Prod.snd)

/-- Concrete css pipeline for the idempotence witness. -/
def pipelineW (css fromPath toPath : String) : String :=
  css ++ "|" ++ fromPath ++ "|" ++ toPath

theorem FS.read_write_self (fs : FS) (p c : String) : (fs.write p c).read p = some c := by
  simp [FS.read, FS.write, lookupFile]

theorem FS.read_write_other (fs : FS) (p q c : String) (h : p ≠ q) :
    (fs.write q c).read p = fs.read p := by
  have hqp : ¬(q = p) := fun hq => h hq.symm
  simp [FS.read, FS.write, lookupFile, hqp]

theorem readFilesSrc_write_stable (fs : FS) (q c : String) (ps : List String)
    (h : ∀ p ∈ ps, p ≠ q) : readFilesSrc (FS.write fs q c) ps = readFilesSrc fs ps := by
  induction ps with
  | nil => rfl
  | cons p rest ih =>
    have hp : p ≠ q := h p (by simp)
    have hrest : ∀ x ∈ rest, x ≠ q := fun x hx => h x (by simp [hx])
    simp only [readFilesSrc, FS.read_write_other fs p q c hp, ih hrest]

/-- Claim C6: the size report classifies a written file's stat size into
three bands — strictly below 1024 bytes a raw byte count, from 1024 up to
(excluding) 1048576 kibibytes rounded to two decimal places, and from
1048576 upward mebibytes rounded to two decimal places — so the exact
boundary sizes 1024 and 1048576 land in the larger unit. -/
theorem printSize_classification (size : Nat) :
    (size < 1024 → printSizeReport size = SizeReport.bytes size)
    ∧ (1024 ≤ size → size < 1048576 →
        printSizeReport size = SizeReport.kib (roundHundredths size 1024))
    ∧ (1048576 ≤ size →
        printSizeReport size = SizeReport.mib (roundHundredths size 1048576)) := by
  refine ⟨fun h => ?_, fun h1 h2 => ?_, fun h => ?_⟩
  · unfold printSizeReport
    rw [if_pos h]
  · unfold printSizeReport
    rw [if_neg (by omega), if_pos h2]
  · unfold printSizeReport
    rw [if_neg (by omega), if_neg (by omega)]

/-- Witness for C6: 1023 bytes stays a byte count, exactly 1024 bytes is
reported as 1.00 KiB (not bytes), exactly 1048576 bytes as 1.00 MiB (not
KiB). -/
theorem printSize_classification_witness :
    printSizeReport 1023 = SizeReport.bytes 1023
    ∧ printSizeReport 1024 = SizeReport.kib 100
    ∧ printSizeReport 1048576 = SizeReport.mib 100 := by
  refine ⟨?_, ?_, ?_⟩
  · exact (printSize_classification 1023).1 (by decide)
  · exact ((printSize_classification 1024).2.1 (by decide) (by decide)).trans (by decide)
  · exact ((printSize_classification 1048576).2.2 (by decide)).trans (by decide)

/-- Claim C5: calling `scripts` with a source argument that is neither an
array nor a string signals the usage error as a synchronous exception,
with no file or network I/O performed and nothing entering the
asynchronous minify pipeline. -/
theorem scripts_usage_error_sync_no_io (cwd : String) (reg : OutputRegistry) (fs : FS)
    (output : String) :
    (scriptsStep cwd reg fs JsArg.other output).2.2
        = ScriptsOutcome.thrown "Uknown type for 'scripts'!"
    ∧ (scriptsStep cwd reg fs JsArg.other output).2.1 = [] :=
  ⟨rfl, rfl⟩

/-- Claim C8: even when `scripts` throws the usage error for an invalid
source argument, the registry's js slot has already been assigned the
given output path — the assignment is the method's first statement, so
the throw does not leave the registry unchanged. -/
theorem scripts_usage_error_sets_js_slot (cwd : String) (reg : OutputRegistry) (fs : FS)
    (output : String) :
    (scriptsStep cwd reg fs JsArg.other output).1.js = some output
    ∧ (scriptsStep cwd reg fs JsArg.other output).2.2
        = ScriptsOutcome.thrown "Uknown type for 'scripts'!" :=
  ⟨rfl, rfl⟩

/-- Claim C9: `version` only reads the OutputRegistry; whatever the
filesystem state (so whether hashing and the manifest write succeed or
fail), both registry slots are unchanged after the call. -/
theorem version_preserves_registry (hash : String → String)
    (serialize : List (String × String) → String) (cwd : String)
    (reg : OutputRegistry) (fs : FS) :
    (versionStep hash serialize cwd reg fs).fst.js = reg.js
    ∧ (versionStep hash serialize cwd reg fs).fst.css = reg.css :=
  ⟨rfl, rfl⟩

/-- Claim C10: the URL-recognition predicate `#isURL` is total over
strings — a parse failure is caught and yields false — and it returns
true exactly when the string parses as a URL whose protocol is
"https:". -/
theorem isURL_total_https_spec (parse : String → Except String URLParts) (link : String) :
    (isURL parse link = true ↔ ∃ u, parse link = Except.ok u ∧ u.protocol = "https:")
    ∧ (∀ e, parse link = Except.error e → isURL parse link = false) := by
  constructor
  · constructor
    · intro h
      cases hp : parse link with
      | error e => simp [isURL, hp] at h
      | ok u =>
        refine ⟨u, rfl, ?_⟩
        simp only [isURL, hp, Bool.and_eq_true, decide_eq_true_eq] at h
        exact h.2.symm
    · rintro ⟨u, hu, hproto⟩
      simp only [isURL, hu]
      rw [hproto]
      decide
  · intro e he
    simp [isURL, he]

/-- Claim C2: among the entries of a list passed to `scripts`, every
entry that parses as a URL with the https: protocol is fetched over the
network under the name given by its final path segment, while every other
entry — http: URLs and plain paths alike — is resolved and read as a
local file, the read failing when no such file exists. -/
theorem scripts_url_routing (parse : String → Except String URLParts) (net : String → String)
    (cwd : String) (fs : FS) (files : List String) (file : String) (hmem : file ∈ files) :
    routeEntry parse net cwd fs file ∈ readFilesNet parse net cwd fs files
    ∧ ((∃ u, parse file = Except.ok u ∧ u.protocol = "https:") →
        routeEntry parse net cwd fs file
          = EntryResult.fetched (basenameAfterSlash file) (net file))
    ∧ ((∀ u, parse file = Except.ok u → u.protocol ≠ "https:") →
        (∀ c, fs.read (pathResolve cwd file) = some c →
            routeEntry parse net cwd fs file
              = EntryResult.readLocal (pathResolve cwd file) c)
        ∧ (fs.read (pathResolve cwd file) = none →
            routeEntry parse net cwd fs file = EntryResult.readFailed file)) := by
  refine ⟨List.mem_map_of_mem _ hmem, ?_, ?_⟩
  · rintro ⟨u, hu, hp⟩
    have ht : isURL parse file = true := by
      simp only [isURL, hu]
      rw [hp]
      decide
    simp [routeEntry, ht]
  · intro hno
    have hf : isURL parse file = false := by
      cases hp2 : parse file with
      | error e => simp [isURL, hp2]
      | ok u =>
        have hne := hno u hp2
        have hd : decide ("https:" = u.protocol) = false :=
          decide_eq_false (fun hx => hne (Eq.symm hx))
        simp only [isURL, hp2]
        rw [hd]
        exact Bool.and_false _
    refine ⟨fun c hc => ?_, fun hc => ?_⟩
    · simp [routeEntry, hf, hc]
    · simp [routeEntry, hf, hc]

/-- Witness for C2: a https CDN link is fetched (named by its last path
segment), a http link is routed to a failing local read, and a plain path
is read from disk. -/
theorem scripts_url_routing_witness :
    routeEntry parseW netW "/w" fsW2 urlHttps
      = EntryResult.fetched (basenameAfterSlash urlHttps) (netW urlHttps)
    ∧ routeEntry parseW netW "/w" fsW2 urlHttp = EntryResult.readFailed urlHttp
    ∧ routeEntry parseW netW "/w" fsW2 "a.js"
      = EntryResult.readLocal (pathResolve "/w" "a.js") "console" := by
  refine ⟨?_, ?_, ?_⟩
  · exact (scripts_url_routing parseW netW "/w" fsW2 [urlHttps, urlHttp, "a.js"] urlHttps
      (by decide)).2.1 ⟨⟨"https:"⟩, rfl, rfl⟩
  · refine ((scripts_url_routing parseW netW "/w" fsW2 [urlHttps, urlHttp, "a.js"] urlHttp
      (by decide)).2.2 ?_).2 rfl
    intro u hu
    rw [show parseW urlHttp = Except.ok ⟨"http:"⟩ from rfl] at hu
    injection hu with h2
    rw [← h2]
    decide
  · refine ((scripts_url_routing parseW netW "/w" fsW2 [urlHttps, urlHttp, "a.js"] "a.js"
      (by decide)).2.2 ?_).1 "console" rfl
    intro u hu
    rw [show parseW "a.js" = Except.error "Invalid URL" from rfl] at hu
    exact Except.noConfusion hu

/-- Claim C3: when `version` runs with an OutputRegistry slot unset or
with a recorded output file absent, the failure surfaces as a rejection
of the asynchronous pipeline (the error channel); no unhandled
synchronous exception is thrown — the outcome type of the embedding has
no synchronous-throw constructor because the method's synchronous section
only builds promises. -/
theorem version_missing_reports_async_failure (hash : String → String)
    (serialize : List (String × String) → String) (cwd : String)
    (reg : OutputRegistry) (fs : FS)
    (h : reg.js = none
      ∨ (∃ p, reg.js = some p ∧ fs.read (pathResolve cwd p) = none)
      ∨ reg.css = none
      ∨ (∃ p, reg.css = some p ∧ fs.read (pathResolve cwd p) = none)) :
    ∃ e, versionRun hash serialize cwd reg fs = VersionOutcome.asyncError e := by
  rcases h with h | ⟨p, hp, hr⟩ | h | ⟨p, hp, hr⟩
  · exact ⟨"TypeError: path must be a string or Buffer", by
      simp only [versionRun, h, md5FileSlot]⟩
  · exact ⟨"ENOENT: no such file or directory, open " ++ p, by
      simp only [versionRun, hp, md5FileSlot, hr]⟩
  · cases hjs : md5FileSlot hash cwd fs reg.js with
    | error e => exact ⟨e, by simp only [versionRun, hjs]⟩
    | ok v =>
      obtain ⟨p1, h1⟩ := v
      refine ⟨"TypeError: path must be a string or Buffer", ?_⟩
      simp only [versionRun]
      rw [hjs]
      simp only [md5FileSlot, h]
  · cases hjs : md5FileSlot hash cwd fs reg.js with
    | error e => exact ⟨e, by simp only [versionRun, hjs]⟩
    | ok v =>
      obtain ⟨p1, h1⟩ := v
      refine ⟨"ENOENT: no such file or directory, open " ++ p, ?_⟩
      simp only [versionRun]
      rw [hjs]
      simp only [md5FileSlot, hp, hr]

/-- Witness for C3: with both registry slots unset (no prior scripts or
styles call), version settles in an asynchronous failure. -/
theorem version_missing_reports_async_failure_witness :
    ∃ e, versionRun hashW serializeW "/w" ⟨none, none⟩ fsW1
      = VersionOutcome.asyncError e :=
  version_missing_reports_async_failure hashW serializeW "/w" ⟨none, none⟩ fsW1 (Or.inl rfl)

/-- Claim C1: with both registry slots recorded and both output files on
disk, `version` produces exactly the two-entry manifest mapping
"/js/NAME" to "/js/NAME?id=H1" and "/css/NAME" to "/css/NAME?id=H2" —
the names being the basenames of the recorded paths after replacing every
backslash with a forward slash, the hashes those of the two files'
contents — and writes its serialization to public/mix-manifest.json,
replacing any prior content there. -/
theorem version_manifest_exact (hash : String → String)
    (serialize : List (String × String) → String) (cwd : String)
    (reg : OutputRegistry) (fs : FS) (jsPath cssPath c1 c2 : String)
    (hjs : reg.js = some jsPath) (hcss : reg.css = some cssPath)
    (h1 : fs.read (pathResolve cwd jsPath) = some c1)
    (h2 : fs.read (pathResolve cwd cssPath) = some c2)
    (hne : hash c1 ≠ "") :
    ∃ fs2,
      versionRun hash serialize cwd reg fs = VersionOutcome.wrote fs2
          [("/js/" ++ basenameAfterSlash (normalizeSeps jsPath),
            "/js/" ++ basenameAfterSlash (normalizeSeps jsPath) ++ "?id=" ++ hash c1),
           ("/css/" ++ basenameAfterSlash (normalizeSeps cssPath),
            "/css/" ++ basenameAfterSlash (normalizeSeps cssPath) ++ "?id=" ++ hash c2)]
      ∧ fs2.read (pathResolve cwd "public/mix-manifest.json")
          = some (serialize
              [("/js/" ++ basenameAfterSlash (normalizeSeps jsPath),
                "/js/" ++ basenameAfterSlash (normalizeSeps jsPath) ++ "?id=" ++ hash c1),
               ("/css/" ++ basenameAfterSlash (normalizeSeps cssPath),
                "/css/" ++ basenameAfterSlash (normalizeSeps cssPath) ++ "?id=" ++ hash c2)]) := by
  have hmix : mixFromResults jsPath cssPath (hash c1) (hash c2)
      = [("/js/" ++ basenameAfterSlash (normalizeSeps jsPath),
          "/js/" ++ basenameAfterSlash (normalizeSeps jsPath) ++ "?id=" ++ hash c1),
         ("/css/" ++ basenameAfterSlash (normalizeSeps cssPath),
          "/css/" ++ basenameAfterSlash (normalizeSeps cssPath) ++ "?id=" ++ hash c2)] := by
    simp [mixFromResults, mixEntry, jsTruthy, jsTemplateStr, hne]
  refine ⟨FS.write fs (pathResolve cwd "public/mix-manifest.json")
      (serialize
        [("/js/" ++ basenameAfterSlash (normalizeSeps jsPath),
          "/js/" ++ basenameAfterSlash (normalizeSeps jsPath) ++ "?id=" ++ hash c1),
         ("/css/" ++ basenameAfterSlash (normalizeSeps cssPath),
          "/css/" ++ basenameAfterSlash (normalizeSeps cssPath) ++ "?id=" ++ hash c2)]),
      ?_, FS.read_write_self _ _ _⟩
  simp only [versionRun, hjs, hcss, md5FileSlot, h1, h2]
  rw [hmix]

/-- Witness for C1: concrete registry, files and digest; the recorded
style path uses Windows separators and its basename is still extracted
after normalization. -/
theorem version_manifest_exact_witness :
    ∃ fs2,
      versionRun hashW serializeW "/w" regW fsW1 = VersionOutcome.wrote fs2
          [("/js/app.min.js", "/js/app.min.js?id=Hjsout"),
           ("/css/app.min.css", "/css/app.min.css?id=Hcssout")]
      ∧ fs2.read "/w/public/mix-manifest.json"
          = some (serializeW
              [("/js/app.min.js", "/js/app.min.js?id=Hjsout"),
               ("/css/app.min.css", "/css/app.min.css?id=Hcssout")]) := by
  have h := version_manifest_exact hashW serializeW "/w" regW fsW1 "dist/app.min.js"
    "assets\\app.min.css" "jsout" "cssout" rfl rfl rfl rfl (by decide)
  obtain ⟨fs2, hw, hr⟩ := h
  have hE : [("/js/" ++ basenameAfterSlash (normalizeSeps "dist/app.min.js"),
        "/js/" ++ basenameAfterSlash (normalizeSeps "dist/app.min.js") ++ "?id=" ++ hashW "jsout"),
       ("/css/" ++ basenameAfterSlash (normalizeSeps "assets\\app.min.css"),
        "/css/" ++ basenameAfterSlash (normalizeSeps "assets\\app.min.css") ++ "?id=" ++ hashW "cssout")]
      = [("/js/app.min.js", "/js/app.min.js?id=Hjsout"),
         ("/css/app.min.css", "/css/app.min.css?id=Hcssout")] := by decide
  rw [hE] at hw hr
  have hP : pathResolve "/w" "public/mix-manifest.json" = "/w/public/mix-manifest.json" := by decide
  rw [hP] at hr
  exact ⟨fs2, hw, hr⟩

/-- Claim C7: re-running `scripts` (and `styles`) on the same sources
with the same contents and the same destination is idempotent — with the
external minifier, css pipeline and digest modelled as deterministic
functions, the content produced for the destination, and hence its
content hash, is unchanged when the run is repeated after the
destination file has been written (the destination not being one of the
sources). -/
theorem rerun_scripts_styles_idempotent (m : List (String × String) → String)
    (pipeline : String → String → String → String) (hash : String → String)
    (cwd : String) (fs : FS) (files : List String) (dest c entry destCss c2 : String)
    (hjs : ∀ f ∈ files, pathResolve cwd f ≠ pathResolve cwd dest)
    (hcss : pathResolve cwd entry ≠ pathResolve cwd destCss) :
    (scriptsContent m cwd (FS.write fs (pathResolve cwd dest) c) files
        = scriptsContent m cwd fs files
      ∧ (scriptsContent m cwd (FS.write fs (pathResolve cwd dest) c) files).map hash
        = (scriptsContent m cwd fs files).map hash)
    ∧ (stylesContent pipeline cwd (FS.write fs (pathResolve cwd destCss) c2) entry destCss
        = stylesContent pipeline cwd fs entry destCss
      ∧ (stylesContent pipeline cwd (FS.write fs (pathResolve cwd destCss) c2) entry
            destCss).map hash
        = (stylesContent pipeline cwd fs entry destCss).map hash) := by
  have hs : readFilesSrc (FS.write fs (pathResolve cwd dest) c) (files.map (pathResolve cwd))
      = readFilesSrc fs (files.map (pathResolve cwd)) := by
    apply readFilesSrc_write_stable
    intro p hp
    obtain ⟨f, hf, rfl⟩ := List.mem_map.mp hp
    exact hjs f hf
  have h1 : scriptsContent m cwd (FS.write fs (pathResolve cwd dest) c) files
      = scriptsContent m cwd fs files := by
    simp only [scriptsContent, hs]
  have h3 : stylesContent pipeline cwd (FS.write fs (pathResolve cwd destCss) c2) entry destCss
      = stylesContent pipeline cwd fs entry destCss := by
    simp only [stylesContent,
      FS.read_write_other fs (pathResolve cwd entry) (pathResolve cwd destCss) c2 hcss]
  exact ⟨⟨h1, by rw [h1]⟩, h3, by rw [h3]⟩

/-- Witness for C7: a concrete one-source bundle and stylesheet; writing
the destinations does not change what a second run produces. -/
theorem rerun_scripts_styles_idempotent_witness :
    (scriptsContent minifyW "/w" (FS.write fsW2 (pathResolve "/w" "dist/o.js") "out") ["a.js"]
        = scriptsContent minifyW "/w" fsW2 ["a.js"]
      ∧ (scriptsContent minifyW "/w" (FS.write fsW2 (pathResolve "/w" "dist/o.js") "out")
            ["a.js"]).map hashW
        = (scriptsContent minifyW "/w" fsW2 ["a.js"]).map hashW)
    ∧ (stylesContent pipelineW "/w" (FS.write fsW2 (pathResolve "/w" "dist/o.css") "outc")
          "a.js" "dist/o.css"
        = stylesContent pipelineW "/w" fsW2 "a.js" "dist/o.css"
      ∧ (stylesContent pipelineW "/w" (FS.write fsW2 (pathResolve "/w" "dist/o.css") "outc")
            "a.js" "dist/o.css").map hashW
        = (stylesContent pipelineW "/w" fsW2 "a.js" "dist/o.css").map hashW) :=
  rerun_scripts_styles_idempotent minifyW pipelineW hashW "/w" fsW2 ["a.js"] "dist/o.js"
    "out" "a.js" "dist/o.css" "outc" (by decide) (by decide)

/-- Counterexample for C4: in the promise-returning revision of
`scripts`, the returned promise's resolution event is not preceded by the
destination write's completion — the write is dispatched but not awaited,
so the promise resolves while the write is still pending. -/
theorem scripts_resolve_before_write_complete_cex :
    ¬ resolvesOnlyAfterWrite "dist/app.min.js" (scriptsRevBTrace "dist/app.min.js") := by
  intro h
  obtain ⟨j, hj, hget⟩ := h 2 rfl
  interval_cases j
  · exact absurd hget (by decide)
  · exact absurd hget (by decide)

/-- Claim C4 (amended): for a successful `scripts` run of the
promise-returning revision, the returned promise resolves after
minification and after the destination write has been dispatched, but
strictly before the write completes; likewise the `styles` promise
resolves before its destination write completes (indeed before the read
and transform), so callers cannot rely on the output file being durably
written when either promise resolves. -/
theorem scripts_resolves_after_dispatch_before_write_complete (dest : String) :
    ((scriptsRevBTrace dest).get? 1 = some (Ev.writeDispatched dest)
      ∧ (scriptsRevBTrace dest).get? 2 = some Ev.promiseResolved
      ∧ (scriptsRevBTrace dest).get? 3 = some (Ev.writeCompleted dest))
    ∧ ((stylesRevBTrace dest).get? 1 = some Ev.promiseResolved
      ∧ (stylesRevBTrace dest).get? 5 = some (Ev.writeCompleted dest)) :=
  ⟨⟨rfl, rfl, rfl⟩, rfl, rfl⟩

end LetsPack
